import Mathlib

/-!
Shallow embedding of the real-time collaborative code-room server
(src/server/index.js). The server keeps two in-memory maps,
userSocketMap (socket id to participant record) and roomsFiles
(room id to ordered file list), plus the transport-level room
membership maintained by socket.join / disconnect. Each socket event
handler is embedded as a pure function from server state to a new
state together with the ordered list of emissions it performs; an
emission records the concrete recipient set computed at emit time
(io.to(room) is every member of the room, socket.to(room) is every
member except the sender, socket.emit is the sender alone).
Machine integers do not arise: file indices arriving over the wire
are modelled as Nat, matching the non-negative integer indices the
client protocol uses.
-/

namespace CollabServer

/-- A file as stored in roomsFiles: a name and a content string. -/
structure File where
  name : String
  content : String
deriving DecidableEq, Repr

/-- A record of userSocketMap: the display name and room of a connection. -/
structure Participant where
  username : String
  roomId : String
deriving DecidableEq, Repr

/-- An entry of the roster (clients array) built in the join and
disconnect handlers: socketId together with the resolved display name. -/
structure ClientInfo where
  socketId : String
  username : String
deriving DecidableEq, Repr

/-- The server-to-client events the embedded handlers can emit,
with the payload fields the source attaches to each. -/
inductive Event where
  | initFiles (files : List File)
  | joined (clients : List ClientInfo)
  | codeChange (code : String) (fileIndex : Nat)
  | cursorChange (username cursor : String)
  | chatMessage (username message timestamp : String)
  | fileAdded (file : File) (fileIndex : Nat)
  | fileRenamed (fileIndex : Nat) (newName : String)
  | fileDeleted (fileIndex : Nat)
  | disconnected (socketId : String) (clients : List ClientInfo)
deriving DecidableEq, Repr

/-- One emission: the concrete list of recipient socket ids,
computed at emit time, and the event delivered to each of them. -/
structure Emit where
  recipients : List String
  event : Event
deriving DecidableEq, Repr

/-- The whole mutable server state: the two in-memory maps of the
source plus the transport adapter room-membership map. -/
structure ServerState where
  userSocketMap : String → Option Participant
  roomsFiles : String → Option (List File)
  rooms : String → List String

/-- Point update of a string-keyed map. -/
def updateMap {α : Type} (m : String → Option α) (k : String) (v : Option α) :
    String → Option α :=
  fun q => if q = k then v else m q

/-- The state at process start: both maps empty, no room has members. -/
def initialState : ServerState :=
  { userSocketMap := fun _ => none
    roomsFiles := fun _ => none
    rooms := fun _ => [] }

/-- The default file a room is seeded with on first join. -/
def defaultFile : File := File.mk "main.py" ""

/-- The lazy room creation performed by the join handler: if the room id
has no entry in roomsFiles it is seeded with exactly the default file;
an existing entry (even an empty array, which is truthy in the source
language) is kept unchanged. -/
def ensureRoom (rf : String → Option (List File)) (roomId : String) :
    String → Option (List File) :=
  match rf roomId with
  | some _ => rf
  | none => updateMap rf roomId (some [defaultFile])

/-- Transport-level socket.join: add the socket to the room's member set
(sets never hold duplicates, so a second join of the same socket is a
no-op on membership). -/
def addToRoom (rs : String → List String) (roomId sid : String) :
    String → List String :=
  fun q =>
    if q = roomId then
      if sid ∈ rs roomId then rs roomId else rs roomId ++ [sid]
    else rs q

/-- Roster name resolution, as written inline twice in the source:
userSocketMap[id]?.username with the fallback label. The fallback
applies when the registry has no entry for the id or when the stored
name is the empty string, the only falsy string. -/
def rosterName (m : String → Option Participant) (id : String) : String :=
  match m id with
  | some p => if p.username = "" then "Anonymous" else p.username
  | none => "Anonymous"

/-- The roster (clients array) for a room: every current member of the
room paired with its resolved display name. -/
def rosterOf (m : String → Option Participant) (members : List String) :
    List ClientInfo :=
  members.map (fun id => ClientInfo.mk id (rosterName m id))

/-- The join handler: register the participant, join the transport room,
lazily create the room files, send the file snapshot to the joiner only,
then broadcast the recomputed roster to the whole room. -/
def handleJoin (s : ServerState) (sid roomId username : String) :
    ServerState × List Emit :=
  let m := updateMap s.userSocketMap sid (some (Participant.mk username roomId))
  let rs := addToRoom s.rooms roomId sid
  let rf := ensureRoom s.roomsFiles roomId
  let files := (rf roomId).getD []
  let clients := rosterOf m (rs roomId)
  (ServerState.mk m rf rs,
   [Emit.mk [sid] (Event.initFiles files),
    Emit.mk (rs roomId) (Event.joined clients)])

/-- Replace the content of the file at the given index, leaving the list
unchanged when the index is out of range. -/
def setContent : List File → Nat → String → List File
  | [], _, _ => []
  | f :: fs, 0, c => File.mk f.name c :: fs
  | f :: fs, Nat.succ n, c => f :: setContent fs n c

/-- Replace the name of the file at the given index, leaving the list
unchanged when the index is out of range. -/
def setName : List File → Nat → String → List File
  | [], _, _ => []
  | f :: fs, 0, n => File.mk n f.content :: fs
  | f :: fs, Nat.succ i, n => f :: setName fs i n

/-- The code-change handler: update the stored content only when both
the room and the index are valid, then rebroadcast unconditionally to
every member of the room except the sender. -/
def handleCodeChange (s : ServerState) (sid roomId code : String)
    (fileIndex : Nat) : ServerState × List Emit :=
  let s1 :=
    match s.roomsFiles roomId with
    | some fs =>
        if fileIndex < fs.length then
          ServerState.mk s.userSocketMap
            (updateMap s.roomsFiles roomId (some (setContent fs fileIndex code)))
            s.rooms
        else s
    | none => s
  (s1,
   [Emit.mk ((s.rooms roomId).filter (fun id => id != sid))
      (Event.codeChange code fileIndex)])

/-- The cursor-change handler: stateless rebroadcast to every member of
the room except the sender. -/
def handleCursorChange (s : ServerState) (sid roomId username cursor : String) :
    ServerState × List Emit :=
  (s,
   [Emit.mk ((s.rooms roomId).filter (fun id => id != sid))
      (Event.cursorChange username cursor)])

/-- The chat-message handler: stateless broadcast to every member of the
room, sender included. -/
def handleChatMessage (s : ServerState)
    (_sid roomId username message timestamp : String) :
    ServerState × List Emit :=
  (s, [Emit.mk (s.rooms roomId) (Event.chatMessage username message timestamp)])

/-- The add-file handler: create an empty file list when the room has
none, append the file, and broadcast the file with its new index to the
whole room. -/
def handleAddFile (s : ServerState) (_sid roomId : String) (file : File) :
    ServerState × List Emit :=
  let fs0 := (s.roomsFiles roomId).getD []
  let fs1 := fs0 ++ [file]
  (ServerState.mk s.userSocketMap
     (updateMap s.roomsFiles roomId (some fs1)) s.rooms,
   [Emit.mk (s.rooms roomId) (Event.fileAdded file (fs1.length - 1))])

/-- The rename-file handler: only when the room exists and the index is
in range, rename the file and broadcast to the whole room; otherwise do
nothing at all. -/
def handleRenameFile (s : ServerState) (_sid roomId : String)
    (fileIndex : Nat) (newName : String) : ServerState × List Emit :=
  match s.roomsFiles roomId with
  | some fs =>
      if fileIndex < fs.length then
        (ServerState.mk s.userSocketMap
           (updateMap s.roomsFiles roomId (some (setName fs fileIndex newName)))
           s.rooms,
         [Emit.mk (s.rooms roomId) (Event.fileRenamed fileIndex newName)])
      else (s, [])
  | none => (s, [])

/-- The delete-file handler: guarded only on the room existing, not on
the index being in range. splice removes the element when the index is
in range and nothing otherwise, and the broadcast is emitted in either
case as long as the room exists. -/
def handleDeleteFile (s : ServerState) (_sid roomId : String)
    (fileIndex : Nat) : ServerState × List Emit :=
  match s.roomsFiles roomId with
  | some fs =>
      (ServerState.mk s.userSocketMap
         (updateMap s.roomsFiles roomId (some (fs.eraseIdx fileIndex)))
         s.rooms,
       [Emit.mk (s.rooms roomId) (Event.fileDeleted fileIndex)])
  | none => (s, [])

/-- The disconnect handler. By the time it runs the transport has
already removed the socket from every room, so membership is filtered
first. The handler reads the registry record, deletes it, and only when
the recorded room id is truthy (non-empty) broadcasts the recomputed
roster, tagged with the departing socket id, to the room. -/
def handleDisconnect (s : ServerState) (sid : String) :
    ServerState × List Emit :=
  let rs := fun q => (s.rooms q).filter (fun id => id != sid)
  let entry := s.userSocketMap sid
  let m := updateMap s.userSocketMap sid none
  let s1 := ServerState.mk m s.roomsFiles rs
  match entry with
  | some p =>
      if p.roomId = "" then (s1, [])
      else
        (s1,
         [Emit.mk (rs p.roomId)
            (Event.disconnected sid (rosterOf m (rs p.roomId)))])
  | none => (s1, [])

/-- One inbound event of the socket protocol, tagged with the sender. -/
inductive Op where
  | join (sid roomId username : String)
  | codeChange (sid roomId code : String) (fileIndex : Nat)
  | cursorChange (sid roomId username cursor : String)
  | chatMessage (sid roomId username message timestamp : String)
  | addFile (sid roomId : String) (file : File)
  | renameFile (sid roomId : String) (fileIndex : Nat) (newName : String)
  | deleteFile (sid roomId : String) (fileIndex : Nat)
  | disconnect (sid : String)
deriving DecidableEq, Repr

/-- Dispatch one inbound event to its handler. -/
def step (s : ServerState) : Op → ServerState × List Emit
  | Op.join sid roomId username => handleJoin s sid roomId username
  | Op.codeChange sid roomId code i => handleCodeChange s sid roomId code i
  | Op.cursorChange sid roomId u c => handleCursorChange s sid roomId u c
  | Op.chatMessage sid roomId u m t => handleChatMessage s sid roomId u m t
  | Op.addFile sid roomId f => handleAddFile s sid roomId f
  | Op.renameFile sid roomId i n => handleRenameFile s sid roomId i n
  | Op.deleteFile sid roomId i => handleDeleteFile s sid roomId i
  | Op.disconnect sid => handleDisconnect s sid

/-- Run a sequence of inbound events, keeping only the final state. -/
def execOps (s : ServerState) : List Op → ServerState
  | [] => s
  | op :: ops => execOps (step s op).1 ops

/-- Every room that exists in the store has a non-empty file list. -/
def roomsNonempty (s : ServerState) : Prop :=
  ∀ r fs, s.roomsFiles r = some fs → fs ≠ []

/-- A concrete two-file list used to instantiate theorems. -/
def twoFiles : List File := [File.mk "main.py" "print", File.mk "util.py" ""]

/-- A concrete state: room r holds the two files and members a and b. -/
def sampleState : ServerState :=
  ServerState.mk (fun _ => none)
    (fun q => if q = "r" then some twoFiles else none)
    (fun q => if q = "r" then ["a", "b"] else [])

/-- The state after two connections joined room r in sequence. -/
def joinedTwice : ServerState :=
  (handleJoin (handleJoin initialState "a" "r" "u").1 "b" "r" "v").1

/-- Replacing a content in a file list never changes its length. -/
theorem length_setContent : ∀ (fs : List File) (i : Nat) (c : String),
    (setContent fs i c).length = fs.length
  | [], _, _ => rfl
  | _ :: _, 0, _ => rfl
  | _ :: fs, Nat.succ n, c => congrArg Nat.succ (length_setContent fs n c)

/-- Renaming a file in a file list never changes its length. -/
theorem length_setName : ∀ (fs : List File) (i : Nat) (n : String),
    (setName fs i n).length = fs.length
  | [], _, _ => rfl
  | _ :: _, 0, _ => rfl
  | _ :: fs, Nat.succ i, n => congrArg Nat.succ (length_setName fs i n)

/-- Looking up the updated key returns the new value. -/
theorem updateMap_self {α : Type} (m : String → Option α) (k : String) (v : Option α) :
    updateMap m k v k = v := by
  simp [updateMap]

/-- Looking up any other key is unchanged by an update. -/
theorem updateMap_other {α : Type} (m : String → Option α) (k : String) (v : Option α)
    (q : String) (h : q ≠ k) : updateMap m k v q = m q := by
  simp [updateMap, h]

/-- ensureRoom on an existing room returns the store unchanged. -/
theorem ensureRoom_some (rf : String → Option (List File)) (roomId : String)
    (fs : List File) (h : rf roomId = some fs) : ensureRoom rf roomId = rf := by
  simp [ensureRoom, h]

/-- ensureRoom on an absent room seeds exactly the default file. -/
theorem ensureRoom_none (rf : String → Option (List File)) (roomId : String)
    (h : rf roomId = none) :
    ensureRoom rf roomId = updateMap rf roomId (some [defaultFile]) := by
  simp [ensureRoom, h]

/-- The join handler's effect on the file store is exactly ensureRoom. -/
theorem handleJoin_roomsFiles (s : ServerState) (sid roomId u : String) :
    (handleJoin s sid roomId u).1.roomsFiles = ensureRoom s.roomsFiles roomId := rfl

/-- A code-change for an absent room leaves the state unchanged. -/
theorem handleCodeChange_none (s : ServerState) (sid roomId code : String) (i : Nat)
    (h : s.roomsFiles roomId = none) : (handleCodeChange s sid roomId code i).1 = s := by
  simp [handleCodeChange, h]

/-- A code-change with an out-of-range index leaves the state unchanged. -/
theorem handleCodeChange_ge (s : ServerState) (sid roomId code : String) (i : Nat)
    (fs : List File) (h : s.roomsFiles roomId = some fs) (hi : fs.length ≤ i) :
    (handleCodeChange s sid roomId code i).1 = s := by
  simp [handleCodeChange, h, Nat.not_lt.mpr hi]

/-- A code-change with a valid index stores the new content at it. -/
theorem handleCodeChange_lt (s : ServerState) (sid roomId code : String) (i : Nat)
    (fs : List File) (h : s.roomsFiles roomId = some fs) (hi : i < fs.length) :
    (handleCodeChange s sid roomId code i).1.roomsFiles
      = updateMap s.roomsFiles roomId (some (setContent fs i code)) := by
  simp [handleCodeChange, h, hi]

/-- A rename for an absent room does nothing at all. -/
theorem handleRenameFile_none (s : ServerState) (sid roomId : String) (i : Nat)
    (n : String) (h : s.roomsFiles roomId = none) :
    handleRenameFile s sid roomId i n = (s, []) := by
  simp [handleRenameFile, h]

/-- A rename with an out-of-range index does nothing at all. -/
theorem handleRenameFile_ge (s : ServerState) (sid roomId : String) (i : Nat)
    (n : String) (fs : List File) (h : s.roomsFiles roomId = some fs)
    (hi : fs.length ≤ i) : handleRenameFile s sid roomId i n = (s, []) := by
  simp [handleRenameFile, h, Nat.not_lt.mpr hi]

/-- A rename with a valid index stores the new name at it and broadcasts. -/
theorem handleRenameFile_lt (s : ServerState) (sid roomId : String) (i : Nat)
    (n : String) (fs : List File) (h : s.roomsFiles roomId = some fs)
    (hi : i < fs.length) :
    (handleRenameFile s sid roomId i n).1.roomsFiles
        = updateMap s.roomsFiles roomId (some (setName fs i n)) ∧
    (handleRenameFile s sid roomId i n).2
        = [Emit.mk (s.rooms roomId) (Event.fileRenamed i n)] := by
  constructor <;> simp [handleRenameFile, h, hi]

/-- The disconnect handler never touches the file store. -/
theorem handleDisconnect_roomsFiles (s : ServerState) (sid : String) :
    (handleDisconnect s sid).1.roomsFiles = s.roomsFiles := by
  unfold handleDisconnect
  cases h : s.userSocketMap sid with
  | some p =>
      by_cases hp : p.roomId = "" <;> simp [h, hp]
  | none => simp [h]

/-- A registered non-empty name resolves to itself in the roster. -/
theorem rosterName_some (m : String → Option Participant) (id : String)
    (p : Participant) (h : m id = some p) (hp : p.username ≠ "") :
    rosterName m id = p.username := by
  unfold rosterName
  rw [h]
  exact if_neg hp

/-- The join handler emits exactly the file snapshot to the joiner
followed by the roster of the updated membership to the updated room. -/
theorem handleJoin_emits (s : ServerState) (sid roomId u : String) :
    (handleJoin s sid roomId u).2
      = [Emit.mk [sid] (Event.initFiles
           (((ensureRoom s.roomsFiles roomId) roomId).getD [])),
         Emit.mk ((addToRoom s.rooms roomId sid) roomId)
           (Event.joined (rosterOf
              (updateMap s.userSocketMap sid (some (Participant.mk u roomId)))
              ((addToRoom s.rooms roomId sid) roomId)))] := rfl

/-- Membership after a transport-level join: the previous members plus
the joining socket. -/
theorem mem_addToRoom (s : ServerState) (sid roomId id : String) :
    id ∈ (addToRoom s.rooms roomId sid) roomId ↔
      id ∈ s.rooms roomId ∨ id = sid := by
  by_cases hs : sid ∈ s.rooms roomId
  · simp only [addToRoom, if_pos rfl, if_pos hs]
    constructor
    · exact Or.inl
    · rintro (h | rfl)
      · exact h
      · exact hs
  · simp [addToRoom, hs]

/-- A disconnect of a connection whose record names a non-empty room
emits exactly the disconnected event, carrying the roster of the
remaining members, to those remaining members. -/
theorem handleDisconnect_emits (s : ServerState) (sid : String) (p : Participant)
    (h : s.userSocketMap sid = some p) (hp : p.roomId ≠ "") :
    (handleDisconnect s sid).2
      = [Emit.mk ((s.rooms p.roomId).filter (fun q => q != sid))
           (Event.disconnected sid
             (rosterOf (updateMap s.userSocketMap sid none)
               ((s.rooms p.roomId).filter (fun q => q != sid))))] := by
  simp [handleDisconnect, h, hp]

/-- A disconnect of a connection recorded with the empty (falsy) room id
emits nothing. -/
theorem handleDisconnect_empty_roomId (s : ServerState) (sid : String)
    (p : Participant) (h : s.userSocketMap sid = some p) (hp : p.roomId = "") :
    (handleDisconnect s sid).2 = [] := by
  simp [handleDisconnect, h, hp]

/-- C1 counterexample: in a freshly joined room r holding exactly the one
default file, a delete-file event with the out-of-range index 5 leaves
the file list unchanged, yet the file-deleted broadcast with index 5 is
still emitted to the room member. This refutes the claim that no
broadcast is emitted when the index is invalid. -/
theorem claim1_counterexample :
    (handleJoin initialState "a" "r" "u").1.roomsFiles "r" = some [defaultFile] ∧
    (handleDeleteFile (handleJoin initialState "a" "r" "u").1 "a" "r" 5).1.roomsFiles "r"
      = some [defaultFile] ∧
    (handleDeleteFile (handleJoin initialState "a" "r" "u").1 "a" "r" 5).2
      = [Emit.mk ["a"] (Event.fileDeleted 5)] := by
  decide

/-- C1 (amended): a delete-file event for an absent room changes nothing
and emits nothing; for an existing room the file list becomes the list
with the index erased, so an out-of-range index leaves it unchanged, but
the file-deleted broadcast to the whole room is emitted whenever the
room exists, whether or not the removal succeeded. -/
theorem claim1_delete_invalid_index (s : ServerState) (sid roomId : String) (i : Nat) :
    (s.roomsFiles roomId = none → handleDeleteFile s sid roomId i = (s, [])) ∧
    (∀ fs, s.roomsFiles roomId = some fs →
      (handleDeleteFile s sid roomId i).1.roomsFiles roomId = some (fs.eraseIdx i) ∧
      (handleDeleteFile s sid roomId i).2 = [Emit.mk (s.rooms roomId) (Event.fileDeleted i)] ∧
      (fs.length ≤ i → (handleDeleteFile s sid roomId i).1.roomsFiles roomId = some fs)) := by
  constructor
  · intro h
    simp [handleDeleteFile, h]
  · intro fs h
    refine ⟨?_, ?_, ?_⟩
    · simp [handleDeleteFile, h, updateMap]
    · simp [handleDeleteFile, h]
    · intro hle
      simp [handleDeleteFile, h, updateMap, List.eraseIdx_of_length_le hle]

/-- C1 witness: the amended theorem evaluated at concrete inputs. -/
theorem claim1_witness :
    handleDeleteFile initialState "x" "q" 0 = (initialState, []) ∧
    (handleDeleteFile sampleState "a" "r" 0).1.roomsFiles "r" = some (twoFiles.eraseIdx 0) :=
  ⟨(claim1_delete_invalid_index initialState "x" "q" 0).1 rfl,
   ((claim1_delete_invalid_index sampleState "a" "r" 0).2 twoFiles (by decide)).1⟩

/-- C2 counterexample: joining room r seeds it with the single default
file, and a subsequent delete-file at index 0 leaves the joined room
with an empty file list, so the at-least-one-file invariant is not
preserved by delete-file. -/
theorem claim2_counterexample :
    (execOps initialState [Op.join "a" "r" "u"]).roomsFiles "r" = some [defaultFile] ∧
    (execOps initialState [Op.join "a" "r" "u", Op.deleteFile "a" "r" 0]).roomsFiles "r"
      = some [] := by
  decide

/-- C2 (amended): the at-least-one-file invariant is preserved by every
operation other than delete-file (join, code-change, cursor-change,
chat-message, add-file, rename-file, disconnect); delete-file can
empty a room, as the counterexample shows. -/
theorem claim2_nonempty_preserved (s : ServerState) (op : Op)
    (hnd : ∀ sid roomId i, op ≠ Op.deleteFile sid roomId i)
    (hne : roomsNonempty s) : roomsNonempty (step s op).1 := by
  cases op with
  | join sid roomId username =>
      intro r fs hr
      rw [show (step s (Op.join sid roomId username)).1.roomsFiles
            = ensureRoom s.roomsFiles roomId from rfl] at hr
      cases h : s.roomsFiles roomId with
      | some g => rw [ensureRoom_some s.roomsFiles roomId g h] at hr; exact hne r fs hr
      | none =>
          rw [ensureRoom_none s.roomsFiles roomId h] at hr
          by_cases hq : r = roomId
          · subst hq
            rw [updateMap_self] at hr
            cases hr
            decide
          · rw [updateMap_other _ _ _ _ hq] at hr
            exact hne r fs hr
  | codeChange sid roomId code i =>
      intro r fs hr
      cases h : s.roomsFiles roomId with
      | some g =>
          by_cases hi : i < g.length
          · rw [show (step s (Op.codeChange sid roomId code i)).1
                  = (handleCodeChange s sid roomId code i).1 from rfl,
                handleCodeChange_lt s sid roomId code i g h hi] at hr
            by_cases hq : r = roomId
            · subst hq
              rw [updateMap_self] at hr
              cases hr
              have hg := hne r g h
              intro hcon
              exact hg (List.length_eq_zero.mp
                ((length_setContent g i code).symm.trans (by rw [hcon]; rfl)))
            · rw [updateMap_other _ _ _ _ hq] at hr
              exact hne r fs hr
          · rw [show (step s (Op.codeChange sid roomId code i)).1
                  = (handleCodeChange s sid roomId code i).1 from rfl,
                handleCodeChange_ge s sid roomId code i g h (Nat.le_of_not_lt hi)] at hr
            exact hne r fs hr
      | none =>
          rw [show (step s (Op.codeChange sid roomId code i)).1
                = (handleCodeChange s sid roomId code i).1 from rfl,
              handleCodeChange_none s sid roomId code i h] at hr
          exact hne r fs hr
  | cursorChange sid roomId u c =>
      exact hne
  | chatMessage sid roomId u m t =>
      exact hne
  | addFile sid roomId f =>
      intro r fs hr
      rw [show (step s (Op.addFile sid roomId f)).1.roomsFiles
            = updateMap s.roomsFiles roomId
                (some (((s.roomsFiles roomId).getD []) ++ [f])) from rfl] at hr
      by_cases hq : r = roomId
      · subst hq
        rw [updateMap_self] at hr
        cases hr
        simp
      · rw [updateMap_other _ _ _ _ hq] at hr
        exact hne r fs hr
  | renameFile sid roomId i n =>
      intro r fs hr
      cases h : s.roomsFiles roomId with
      | some g =>
          by_cases hi : i < g.length
          · rw [show (step s (Op.renameFile sid roomId i n)).1
                  = (handleRenameFile s sid roomId i n).1 from rfl,
                (handleRenameFile_lt s sid roomId i n g h hi).1] at hr
            by_cases hq : r = roomId
            · subst hq
              rw [updateMap_self] at hr
              cases hr
              have hg := hne r g h
              intro hcon
              exact hg (List.length_eq_zero.mp
                ((length_setName g i n).symm.trans (by rw [hcon]; rfl)))
            · rw [updateMap_other _ _ _ _ hq] at hr
              exact hne r fs hr
          · rw [show (step s (Op.renameFile sid roomId i n)).1
                  = (handleRenameFile s sid roomId i n).1 from rfl,
                handleRenameFile_ge s sid roomId i n g h (Nat.le_of_not_lt hi)] at hr
            exact hne r fs hr
      | none =>
          rw [show (step s (Op.renameFile sid roomId i n)).1
                = (handleRenameFile s sid roomId i n).1 from rfl,
              handleRenameFile_none s sid roomId i n h] at hr
          exact hne r fs hr
  | deleteFile sid roomId i =>
      exact absurd rfl (hnd sid roomId i)
  | disconnect sid =>
      intro r fs hr
      rw [show (step s (Op.disconnect sid)).1
            = (handleDisconnect s sid).1 from rfl,
          handleDisconnect_roomsFiles s sid] at hr
      exact hne r fs hr

/-- C2 witness: the empty initial state has no room, so the invariant
holds there, and it is preserved across a concrete join. -/
theorem claim2_witness : roomsNonempty (step initialState (Op.join "a" "r" "u")).1 :=
  claim2_nonempty_preserved initialState (Op.join "a" "r" "u")
    (fun _ _ _ h => Op.noConfusion h) (fun _ _ h => Option.noConfusion h)

/-- C3 counterexample: a connection joining with the empty display name
is registered with the empty name as-is, yet the roster broadcast on
that very join lists it as Anonymous, not as the empty string: the
fallback also fires for an empty (falsy) registered name, not only for
a missing registry entry. -/
theorem claim3_counterexample :
    (handleJoin initialState "a" "r" "").1.userSocketMap "a"
      = some (Participant.mk "" "r") ∧
    (handleJoin initialState "a" "r" "").2
      = [Emit.mk ["a"] (Event.initFiles [defaultFile]),
         Emit.mk ["a"] (Event.joined [ClientInfo.mk "a" "Anonymous"])] := by
  decide

/-- C3 (amended): for every joined connection registered with display
name d, the roster computed on a later join or on a disconnect lists
that connection with name exactly d whenever d is non-empty (and the
roster computed on the connection's own join lists it likewise); the
Anonymous fallback is used when the registry has no entry for the
connection at roster-computation time, and also when the registered
name is the empty string. -/
theorem claim3_roster_names :
    (∀ (s : ServerState) (sid roomId u id : String) (p : Participant),
      s.userSocketMap id = some p → p.username ≠ "" → id ≠ sid →
      id ∈ s.rooms roomId →
      ∀ e, e ∈ (handleJoin s sid roomId u).2 →
      ∀ cs, e.event = Event.joined cs → ClientInfo.mk id p.username ∈ cs) ∧
    (∀ (s : ServerState) (sid : String) (p : Participant),
      s.userSocketMap sid = some p →
      ∀ (id : String) (q : Participant),
        s.userSocketMap id = some q → q.username ≠ "" → id ≠ sid →
        id ∈ s.rooms p.roomId →
        ∀ e, e ∈ (handleDisconnect s sid).2 →
        ∀ cs, e.event = Event.disconnected sid cs →
          ClientInfo.mk id q.username ∈ cs) ∧
    (∀ (s : ServerState) (sid roomId u : String), u ≠ "" →
      ∀ e, e ∈ (handleJoin s sid roomId u).2 →
      ∀ cs, e.event = Event.joined cs → ClientInfo.mk sid u ∈ cs) ∧
    (∀ (m : String → Option Participant) (id : String) (p : Participant),
      m id = some p → p.username ≠ "" → rosterName m id = p.username) ∧
    (∀ (m : String → Option Participant) (id : String),
      m id = none → rosterName m id = "Anonymous") ∧
    (∀ (m : String → Option Participant) (id : String) (p : Participant),
      m id = some p → p.username = "" → rosterName m id = "Anonymous") := by
  refine ⟨?_, ?_, ?_, rosterName_some, ?_, ?_⟩
  · intro s sid roomId u id p hentry hp hidsid hidmem e he cs hcs
    rw [handleJoin_emits] at he
    simp only [List.mem_cons, List.not_mem_nil, or_false] at he
    rcases he with rfl | rfl
    · exact Event.noConfusion hcs
    · have hcls := Event.joined.inj hcs
      subst hcls
      have hmem : id ∈ (addToRoom s.rooms roomId sid) roomId :=
        (mem_addToRoom s sid roomId id).mpr (Or.inl hidmem)
      have hm : (updateMap s.userSocketMap sid
          (some (Participant.mk u roomId))) id = some p := by
        rw [updateMap_other _ _ _ _ hidsid]
        exact hentry
      unfold rosterOf
      exact List.mem_map.mpr ⟨id, hmem, by rw [rosterName_some _ id p hm hp]⟩
  · intro s sid p hentry id q hq hqname hidsid hidmem e he cs hcs
    by_cases hp0 : p.roomId = ""
    · rw [handleDisconnect_empty_roomId s sid p hentry hp0] at he
      exact absurd he (List.not_mem_nil e)
    · rw [handleDisconnect_emits s sid p hentry hp0] at he
      have he2 := List.mem_singleton.mp he
      subst he2
      have hcls := (Event.disconnected.inj hcs).2
      subst hcls
      have hmem : id ∈ (s.rooms p.roomId).filter (fun q => q != sid) :=
        List.mem_filter.mpr ⟨hidmem, bne_iff_ne.mpr hidsid⟩
      have hm : (updateMap s.userSocketMap sid none) id = some q := by
        rw [updateMap_other _ _ _ _ hidsid]
        exact hq
      unfold rosterOf
      exact List.mem_map.mpr ⟨id, hmem, by rw [rosterName_some _ id q hm hqname]⟩
  · intro s sid roomId u hu e he cs hcs
    rw [handleJoin_emits] at he
    simp only [List.mem_cons, List.not_mem_nil, or_false] at he
    rcases he with rfl | rfl
    · exact Event.noConfusion hcs
    · have hcls := Event.joined.inj hcs
      subst hcls
      have hsid : sid ∈ (addToRoom s.rooms roomId sid) roomId :=
        (mem_addToRoom s sid roomId sid).mpr (Or.inr rfl)
      have hname : rosterName
          (updateMap s.userSocketMap sid (some (Participant.mk u roomId))) sid = u :=
        rosterName_some _ sid (Participant.mk u roomId) (updateMap_self _ _ _) hu
      unfold rosterOf
      exact List.mem_map.mpr ⟨sid, hsid, by rw [hname]⟩
  · intro m id h
    unfold rosterName
    rw [h]
  · intro m id p h hp
    unfold rosterName
    rw [h]
    exact if_pos hp

/-- C3 witness: connection a registered as Bob is listed as Bob in the
roster computed when a second connection c later joins the room. -/
theorem claim3_witness :
    ClientInfo.mk "a" "Bob" ∈ [ClientInfo.mk "a" "Bob", ClientInfo.mk "c" "Carol"] :=
  claim3_roster_names.1 (handleJoin initialState "a" "r" "Bob").1 "c" "r" "Carol"
    "a" (Participant.mk "Bob" "r") (by decide) (by decide) (by decide) (by decide)
    (Emit.mk ["a", "c"] (Event.joined
      [ClientInfo.mk "a" "Bob", ClientInfo.mk "c" "Carol"])) (by decide)
    [ClientInfo.mk "a" "Bob", ClientInfo.mk "c" "Carol"] rfl

/-- C4: every code-change emission carries the code and index and is
delivered exactly to the members of the room other than the sender,
while every chat-message emission carries the username, message and
timestamp of the input and is delivered exactly to the members of the
room, sender included; both handlers emit exactly one event. -/
theorem claim4_broadcast_audiences :
    (∀ (s : ServerState) (sid roomId code : String) (i : Nat) (id : String)
        (e : Emit), e ∈ (handleCodeChange s sid roomId code i).2 →
      e.event = Event.codeChange code i ∧
      (id ∈ e.recipients ↔ id ∈ s.rooms roomId ∧ id ≠ sid)) ∧
    (∀ (s : ServerState) (sid roomId u msg t : String) (id : String)
        (e : Emit), e ∈ (handleChatMessage s sid roomId u msg t).2 →
      e.event = Event.chatMessage u msg t ∧
      (id ∈ e.recipients ↔ id ∈ s.rooms roomId)) ∧
    (∀ (s : ServerState) (sid roomId code : String) (i : Nat),
      (handleCodeChange s sid roomId code i).2.length = 1) ∧
    (∀ (s : ServerState) (sid roomId u msg t : String),
      (handleChatMessage s sid roomId u msg t).2.length = 1) := by
  refine ⟨?_, ?_, fun _ _ _ _ _ => rfl, fun _ _ _ _ _ _ => rfl⟩
  · intro s sid roomId code i id e he
    rw [show (handleCodeChange s sid roomId code i).2
          = [Emit.mk ((s.rooms roomId).filter (fun q => q != sid))
               (Event.codeChange code i)] from rfl] at he
    have := List.mem_singleton.mp he
    subst this
    exact ⟨rfl, by simp [List.mem_filter]⟩
  · intro s sid roomId u msg t id e he
    have := List.mem_singleton.mp he
    subst this
    exact ⟨rfl, Iff.rfl⟩

/-- C4 witness: in the sample room with members a and b, the code-change
sent by a is delivered to b and not to a; b satisfies the audience
characterization. -/
theorem claim4_witness :
    (Emit.mk ["b"] (Event.codeChange "x" 0)).event = Event.codeChange "x" 0 ∧
    ("b" ∈ (Emit.mk ["b"] (Event.codeChange "x" 0)).recipients ↔
      "b" ∈ sampleState.rooms "r" ∧ "b" ≠ "a") :=
  claim4_broadcast_audiences.1 sampleState "a" "r" "x" 0 "b"
    (Emit.mk ["b"] (Event.codeChange "x" 0)) (by decide)

/-- C6: the join handler emits exactly two events, in order: first the
initialize-files event carrying the room's file list after the lazy
creation (the existing list when the room exists, the default file
otherwise), addressed to the joining connection alone, then the joined
event carrying the roster of the updated membership, addressed to the
entire updated room membership, which is the previous members together
with the joining connection; the roster contains an entry for the
joining connection. -/
theorem claim6_join_ordering (s : ServerState) (sid roomId u : String) :
    ((handleJoin s sid roomId u).2
      = [Emit.mk [sid] (Event.initFiles
           (((ensureRoom s.roomsFiles roomId) roomId).getD [])),
         Emit.mk ((addToRoom s.rooms roomId sid) roomId)
           (Event.joined (rosterOf
              (updateMap s.userSocketMap sid (some (Participant.mk u roomId)))
              ((addToRoom s.rooms roomId sid) roomId)))]) ∧
    (∀ fs, s.roomsFiles roomId = some fs →
      ((ensureRoom s.roomsFiles roomId) roomId).getD [] = fs) ∧
    (s.roomsFiles roomId = none →
      ((ensureRoom s.roomsFiles roomId) roomId).getD [] = [defaultFile]) ∧
    (∀ id, id ∈ (addToRoom s.rooms roomId sid) roomId ↔
      id ∈ s.rooms roomId ∨ id = sid) ∧
    (∃ c, c ∈ rosterOf
        (updateMap s.userSocketMap sid (some (Participant.mk u roomId)))
        ((addToRoom s.rooms roomId sid) roomId) ∧ c.socketId = sid) := by
  refine ⟨handleJoin_emits s sid roomId u, ?_, ?_, mem_addToRoom s sid roomId, ?_⟩
  · intro fs h
    rw [ensureRoom_some s.roomsFiles roomId fs h, h]
    rfl
  · intro h
    rw [ensureRoom_none s.roomsFiles roomId h, updateMap_self]
    rfl
  · have hsid : sid ∈ (addToRoom s.rooms roomId sid) roomId :=
      (mem_addToRoom s sid roomId sid).mpr (Or.inr rfl)
    refine ⟨ClientInfo.mk sid (rosterName
      (updateMap s.userSocketMap sid (some (Participant.mk u roomId))) sid), ?_, rfl⟩
    unfold rosterOf
    exact List.mem_map.mpr ⟨sid, hsid, rfl⟩

/-- C6 witness: on the sample state, the snapshot pushed by a join is
the room's existing file list and the roster audience is the previous
members plus the joiner. -/
theorem claim6_witness :
    ((ensureRoom sampleState.roomsFiles "r") "r").getD [] = twoFiles ∧
    ("b" ∈ (addToRoom sampleState.rooms "r" "c") "r" ↔
      "b" ∈ sampleState.rooms "r" ∨ "b" = "c") :=
  ⟨(claim6_join_ordering sampleState "c" "r" "w").2.1 twoFiles (by decide),
   (claim6_join_ordering sampleState "c" "r" "w").2.2.2.1 "b"⟩

/-- C7: ensureRoom is idempotent; on an absent room it seeds exactly the
single default file with empty content, on an existing room it is the
identity; accordingly a join leaves an existing file list unchanged and
seeds an absent one with the default file. -/
theorem claim7_ensureRoom_idempotent :
    (∀ (rf : String → Option (List File)) (roomId : String),
      ensureRoom (ensureRoom rf roomId) roomId = ensureRoom rf roomId) ∧
    (∀ (rf : String → Option (List File)) (roomId : String),
      rf roomId = none → ensureRoom rf roomId roomId = some [defaultFile]) ∧
    (∀ (rf : String → Option (List File)) (roomId : String) (fs : List File),
      rf roomId = some fs → ensureRoom rf roomId = rf) ∧
    (∀ (s : ServerState) (sid roomId u : String) (fs : List File),
      s.roomsFiles roomId = some fs →
      (handleJoin s sid roomId u).1.roomsFiles roomId = some fs) ∧
    (∀ (s : ServerState) (sid roomId u : String),
      s.roomsFiles roomId = none →
      (handleJoin s sid roomId u).1.roomsFiles roomId = some [defaultFile]) := by
  have h2 : ∀ (rf : String → Option (List File)) (roomId : String),
      rf roomId = none → ensureRoom rf roomId roomId = some [defaultFile] := by
    intro rf roomId h
    rw [ensureRoom_none rf roomId h, updateMap_self]
  refine ⟨?_, h2, ensureRoom_some, ?_, ?_⟩
  · intro rf roomId
    cases h : rf roomId with
    | some fs =>
        rw [ensureRoom_some rf roomId fs h]
        exact ensureRoom_some rf roomId fs h
    | none =>
        rw [ensureRoom_none rf roomId h]
        exact ensureRoom_some _ roomId [defaultFile] (updateMap_self rf roomId _)
  · intro s sid roomId u fs h
    rw [handleJoin_roomsFiles, ensureRoom_some s.roomsFiles roomId fs h]
    exact h
  · intro s sid roomId u h
    rw [handleJoin_roomsFiles]
    exact h2 s.roomsFiles roomId h

/-- C7 witness: idempotence and seeding on the empty initial store, and
preservation of the sample state's existing file list across a join. -/
theorem claim7_witness :
    ensureRoom (ensureRoom initialState.roomsFiles "r") "r"
      = ensureRoom initialState.roomsFiles "r" ∧
    ensureRoom initialState.roomsFiles "r" "r" = some [defaultFile] ∧
    (handleJoin sampleState "a" "r" "u").1.roomsFiles "r" = some twoFiles :=
  ⟨claim7_ensureRoom_idempotent.1 initialState.roomsFiles "r",
   claim7_ensureRoom_idempotent.2.1 initialState.roomsFiles "r" rfl,
   claim7_ensureRoom_idempotent.2.2.2.1 sampleState "a" "r" "u" twoFiles (by decide)⟩

/-- Renaming stores the new name over the old content at the index. -/
theorem getElem?_setName_self : ∀ (fs : List File) (i : Nat) (n : String),
    (setName fs i n)[i]? = (fs[i]?).map (fun f => File.mk n f.content)
  | [], _, _ => by simp [setName]
  | f :: fs, 0, n => by simp [setName]
  | f :: fs, Nat.succ i, n => by
      simp only [setName, List.getElem?_cons_succ]
      exact getElem?_setName_self fs i n

/-- Renaming one index leaves every other index unchanged. -/
theorem getElem?_setName_other : ∀ (fs : List File) (i : Nat) (n : String) (j : Nat),
    j ≠ i → (setName fs i n)[j]? = fs[j]?
  | [], _, _, _, _ => by simp [setName]
  | _ :: _, 0, _, 0, h => absurd rfl h
  | _ :: _, 0, _, Nat.succ _, _ => by simp [setName]
  | _ :: _, Nat.succ _, _, 0, _ => by simp [setName]
  | _ :: fs, Nat.succ i, n, Nat.succ j, h => by
      simp only [setName, List.getElem?_cons_succ]
      exact getElem?_setName_other fs i n j (fun hc => h (congrArg Nat.succ hc))

/-- C5: deleting a valid index removes exactly that file, shifting every
later index down by one and leaving earlier indices unchanged, and a
subsequent code-change addressing an index past the new end of the list
leaves the state entirely unchanged. -/
theorem claim5_delete_shifts (s : ServerState) (sid roomId : String) (i : Nat)
    (fs : List File) (hfs : s.roomsFiles roomId = some fs) (hi : i < fs.length) :
    (handleDeleteFile s sid roomId i).1.roomsFiles roomId = some (fs.eraseIdx i) ∧
    (fs.eraseIdx i).length = fs.length - 1 ∧
    (∀ j, j < i → (fs.eraseIdx i)[j]? = fs[j]?) ∧
    (∀ j, i < j → (fs.eraseIdx i)[j - 1]? = fs[j]?) ∧
    (∀ (code : String) (k : Nat), (fs.eraseIdx i).length ≤ k →
      (handleCodeChange (handleDeleteFile s sid roomId i).1 sid roomId code k).1
        = (handleDeleteFile s sid roomId i).1) := by
  have hfst : (handleDeleteFile s sid roomId i).1.roomsFiles roomId
      = some (fs.eraseIdx i) := by
    simp [handleDeleteFile, hfs, updateMap]
  refine ⟨hfst, List.length_eraseIdx_of_lt hi, ?_, ?_, ?_⟩
  · intro j hj
    exact List.getElem?_eraseIdx_of_lt fs i j hj
  · intro j hj
    have h1 : i ≤ j - 1 := Nat.le_pred_of_lt hj
    have hj0 : 1 ≤ j := Nat.lt_of_le_of_lt (Nat.zero_le i) hj
    rw [List.getElem?_eraseIdx_of_ge fs i (j - 1) h1, Nat.sub_add_cancel hj0]
  · intro code k hk
    exact handleCodeChange_ge _ sid roomId code k (fs.eraseIdx i) hfst hk

/-- C5 witness: deleting index 0 of the two-file sample room. -/
theorem claim5_witness :
    (handleDeleteFile sampleState "a" "r" 0).1.roomsFiles "r"
      = some (twoFiles.eraseIdx 0) ∧
    (twoFiles.eraseIdx 0).length = twoFiles.length - 1 :=
  ⟨(claim5_delete_shifts sampleState "a" "r" 0 twoFiles (by decide) (by decide)).1,
   (claim5_delete_shifts sampleState "a" "r" 0 twoFiles (by decide) (by decide)).2.1⟩

/-- C8: a rename with a valid room and index stores the new name at the
index with the content preserved and all other files and rooms and the
registry untouched, and broadcasts the index and new name to the whole
room; with an absent room or out-of-range index the whole state is
unchanged and nothing is emitted. -/
theorem claim8_rename_file (s : ServerState) (sid roomId : String) (i : Nat)
    (newName : String) :
    (s.roomsFiles roomId = none → handleRenameFile s sid roomId i newName = (s, [])) ∧
    (∀ fs, s.roomsFiles roomId = some fs → fs.length ≤ i →
      handleRenameFile s sid roomId i newName = (s, [])) ∧
    (∀ fs, s.roomsFiles roomId = some fs → i < fs.length →
      (handleRenameFile s sid roomId i newName).1.roomsFiles roomId
          = some (setName fs i newName) ∧
      (setName fs i newName)[i]? = (fs[i]?).map (fun f => File.mk newName f.content) ∧
      (∀ j, j ≠ i → (setName fs i newName)[j]? = fs[j]?) ∧
      (∀ r, r ≠ roomId →
        (handleRenameFile s sid roomId i newName).1.roomsFiles r = s.roomsFiles r) ∧
      (handleRenameFile s sid roomId i newName).1.userSocketMap = s.userSocketMap ∧
      (handleRenameFile s sid roomId i newName).2
          = [Emit.mk (s.rooms roomId) (Event.fileRenamed i newName)]) := by
  refine ⟨handleRenameFile_none s sid roomId i newName,
          fun fs h hi => handleRenameFile_ge s sid roomId i newName fs h hi,
          fun fs h hi => ?_⟩
  obtain ⟨h1, h2⟩ := handleRenameFile_lt s sid roomId i newName fs h hi
  refine ⟨by rw [h1, updateMap_self], getElem?_setName_self fs i newName,
          fun j hj => getElem?_setName_other fs i newName j hj,
          fun r hr => by rw [h1, updateMap_other _ _ _ _ hr],
          ?_, h2⟩
  simp [handleRenameFile, h, hi]

/-- C8 witness: a valid rename and an out-of-range rename on the sample
two-file room. -/
theorem claim8_witness :
    (handleRenameFile sampleState "a" "r" 0 "new.py").1.roomsFiles "r"
      = some (setName twoFiles 0 "new.py") ∧
    handleRenameFile sampleState "a" "r" 5 "new.py" = (sampleState, []) :=
  ⟨((claim8_rename_file sampleState "a" "r" 0 "new.py").2.2 twoFiles
      (by decide) (by decide)).1,
   (claim8_rename_file sampleState "a" "r" 5 "new.py").2.1 twoFiles
      (by decide) (by decide)⟩

/-- C9 counterexample: a connection joined to the room whose id is the
empty string is a joined connection with a registry entry, yet its
disconnect removes the entry and emits no broadcast at all, because the
handler tests the recorded room id for truthiness and the empty string
is falsy. -/
theorem claim9_counterexample :
    (handleJoin initialState "a" "" "Alice").1.userSocketMap "a"
      = some (Participant.mk "Alice" "") ∧
    (handleDisconnect (handleJoin initialState "a" "" "Alice").1 "a").2 = [] ∧
    (handleDisconnect (handleJoin initialState "a" "" "Alice").1 "a").1.userSocketMap "a"
      = none := by
  decide

/-- C9 (amended): disconnecting a never-joined connection emits nothing
and leaves the file store unchanged; disconnecting a joined connection
removes its registry entry and, whenever its recorded room id is
non-empty, broadcasts to that room a disconnected event, tagged with
the departing socket id, whose recipient set and roster both exclude
the departing connection; when the recorded room id is the empty
string the entry is removed but nothing is emitted. -/
theorem claim9_disconnect (s : ServerState) (sid : String) :
    (s.userSocketMap sid = none →
      (handleDisconnect s sid).2 = [] ∧
      (handleDisconnect s sid).1.roomsFiles = s.roomsFiles) ∧
    (∀ p, s.userSocketMap sid = some p →
      (handleDisconnect s sid).1.userSocketMap sid = none ∧
      (p.roomId = "" → (handleDisconnect s sid).2 = []) ∧
      (p.roomId ≠ "" →
        (handleDisconnect s sid).2
          = [Emit.mk ((s.rooms p.roomId).filter (fun q => q != sid))
               (Event.disconnected sid
                 (rosterOf (updateMap s.userSocketMap sid none)
                   ((s.rooms p.roomId).filter (fun q => q != sid))))] ∧
        (∀ id, id ∈ (s.rooms p.roomId).filter (fun q => q != sid) ↔
          id ∈ s.rooms p.roomId ∧ id ≠ sid) ∧
        (∀ c, c ∈ rosterOf (updateMap s.userSocketMap sid none)
            ((s.rooms p.roomId).filter (fun q => q != sid)) →
          c.socketId ≠ sid))) := by
  constructor
  · intro h
    exact ⟨by simp [handleDisconnect, h], handleDisconnect_roomsFiles s sid⟩
  · intro p h
    refine ⟨?_, handleDisconnect_empty_roomId s sid p h, ?_⟩
    · have hm : (handleDisconnect s sid).1.userSocketMap
          = updateMap s.userSocketMap sid none := by
        unfold handleDisconnect
        by_cases hp : p.roomId = "" <;> simp [h, hp]
      rw [hm, updateMap_self]
    · intro hp
      refine ⟨handleDisconnect_emits s sid p h hp, ?_, ?_⟩
      · intro id
        simp [List.mem_filter]
      · intro c hc
        unfold rosterOf at hc
        obtain ⟨q, hq, hqc⟩ := List.mem_map.mp hc
        have hb := (List.mem_filter.mp hq).2
        intro hcs
        rw [← hqc] at hcs
        exact bne_iff_ne.mp hb hcs

/-- C9 witness: disconnecting one of the two joined connections removes
its registry entry and broadcasts the disconnected event, carrying the
roster of the remaining member, to exactly the remaining member. -/
theorem claim9_witness :
    (handleDisconnect joinedTwice "a").1.userSocketMap "a" = none ∧
    (handleDisconnect joinedTwice "a").2
      = [Emit.mk ((joinedTwice.rooms "r").filter (fun q => q != "a"))
           (Event.disconnected "a"
             (rosterOf (updateMap joinedTwice.userSocketMap "a" none)
               ((joinedTwice.rooms "r").filter (fun q => q != "a"))))] :=
  ⟨((claim9_disconnect joinedTwice "a").2 (Participant.mk "u" "r") (by decide)).1,
   (((claim9_disconnect joinedTwice "a").2 (Participant.mk "u" "r")
       (by decide)).2.2 (by decide)).1⟩

/-- C10: an add-file event whose room id has no entry in the store
creates the room holding exactly the pushed file at index 0, with no
default file seeded, and broadcasts the file with index 0 to the room
members. -/
theorem claim10_add_file_creates_room (s : ServerState) (sid roomId : String)
    (file : File) (h : s.roomsFiles roomId = none) :
    (handleAddFile s sid roomId file).1.roomsFiles roomId = some [file] ∧
    (handleAddFile s sid roomId file).2
      = [Emit.mk (s.rooms roomId) (Event.fileAdded file 0)] := by
  constructor
  · simp [handleAddFile, h, updateMap]
  · simp [handleAddFile, h]

/-- C10 witness: the theorem evaluated on the empty initial state. -/
theorem claim10_witness :
    (handleAddFile initialState "a" "q" defaultFile).1.roomsFiles "q" = some [defaultFile] ∧
    (handleAddFile initialState "a" "q" defaultFile).2
      = [Emit.mk (initialState.rooms "q") (Event.fileAdded defaultFile 0)] :=
  claim10_add_file_creates_room initialState "a" "q" defaultFile rfl

end CollabServer
